import Mathlib

/-!
# Verification of the IBGE municipalities dashboard data pipeline

A shallow embedding of the data transformations performed by `app.py` of the
`dashboard-ibge` repository: loading a table of Brazilian municipalities,
filtering it by state and minimum population, and the per-chart shaping steps
(top-N selection, size-category binning, best/worst ranking, geo cleaning and
elevation normalization, CSV export).

Conventions of the embedding:
* a DataFrame is a `List Row`; a numeric cell is `Option ℚ`, where `none`
  models a missing value or a value that `pd.to_numeric(errors := coerce)`
  turns into NaN, and `some q` models a parseable numeric value;
* a string cell is `Option String` (`none` = NaN);
* pandas operations used by the script are embedded as total functions on
  these lists, following the pandas semantics of each call site.
-/

namespace Dashboard

/-- One row of the loaded municipalities table, restricted to the fields the
dashboard reads: municipality name, state, the selected population column,
the selected GDP-per-capita column, the selected HDI column, the last biome
column, and the coordinates.  Numeric fields hold the value produced by
`pd.to_numeric(..., errors = coerce)`: `none` is NaN (missing or
unparseable), `some q` a parsed number. -/
structure Row where
  municipio : Option String
  estado : Option String
  pop : Option ℚ
  pib : Option ℚ
  idh : Option ℚ
  bioma : Option String
  lat : Option ℚ
  lon : Option ℚ
deriving DecidableEq

/-- `Series.isin` applied to the `estado` column (app.py line 122): a row
passes iff its raw state value is literally one of the selected strings.
A NaN state is never a member of a list of strings. -/
def estadoIsin (sel : List String) (r : Row) : Bool :=
  match r.estado with
  | some e => sel.contains e
  | none => false

/-- app.py lines 121-122: the state filter runs only when the multiselect
returned a non-empty list (`if estado_sel and ...`); with an empty selection
the frame passes through unchanged. -/
def stateFilter (sel : List String) (df : List Row) : List Row :=
  if sel.isEmpty then df else df.filter (estadoIsin sel)

/-- app.py line 125: the population value used for the threshold comparison,
`df_filtered[pop_col].fillna(0)` — a missing/unparseable population counts
as 0. -/
def popCoerced (r : Row) : ℚ :=
  r.pop.getD 0

/-- app.py lines 120-125: the filter stage.  The frame is copied, the state
filter is applied, the population column is coerced to numeric, and rows with
`fillna(0)` population below the slider threshold are dropped.  (The
population part runs when a population column exists, which is the situation
every claim about the threshold describes.) -/
def applyFilters (sel : List String) (minPop : ℚ) (df : List Row) : List Row :=
  (stateFilter sel df).filter (fun r => decide (minPop ≤ popCoerced r))

/-- C1: row membership in the filtered view. -/
theorem mem_applyFilters (sel : List String) (minPop : ℚ) (df : List Row) (r : Row) :
    r ∈ applyFilters sel minPop df ↔ r ∈ stateFilter sel df ∧ minPop ≤ popCoerced r := by
  simp [applyFilters, List.mem_filter]

/-- C1, claim as stated: for every threshold `t`, a row is in the filtered
view iff it passes the state filter and its coerced population (missing or
unparseable treated as 0) is at least `t`; in particular a row with missing
population is excluded whenever `t > 0`. -/
theorem population_filter_correct (sel : List String) (t : ℚ) (df : List Row) (r : Row) :
    (r ∈ applyFilters sel t df ↔ r ∈ stateFilter sel df ∧ t ≤ popCoerced r) ∧
    (0 < t → r.pop = none → r ∉ applyFilters sel t df) := by
  refine ⟨mem_applyFilters sel t df r, ?_⟩
  intro ht hnone hmem
  have h := (mem_applyFilters sel t df r).mp hmem
  have : popCoerced r = 0 := by simp [popCoerced, hnone]
  rw [this] at h
  exact absurd h.2 (not_le.mpr ht)

/-- Concrete instance of `population_filter_correct`: a row whose population
cell is NaN is excluded once the threshold is positive. -/
theorem population_filter_correct_witness :
    (⟨some "A", some "SP", none, none, none, none, none, none⟩ : Row) ∉
      applyFilters ["SP"] 5 [⟨some "A", some "SP", none, none, none, none, none, none⟩] :=
  (population_filter_correct ["SP"] 5
      [⟨some "A", some "SP", none, none, none, none, none, none⟩]
      ⟨some "A", some "SP", none, none, none, none, none, none⟩).2
    (by norm_num) rfl

/-- C4, claim as stated: an empty state selection is a no-op, and with a
non-empty selection a row is kept iff its raw state field is literally an
element of the selection (exact membership, no normalization; a missing
state is dropped). -/
theorem state_filter_correct (sel : List String) (df : List Row) (r : Row) :
    (sel = [] → stateFilter sel df = df) ∧
    (sel ≠ [] →
      (r ∈ stateFilter sel df ↔ r ∈ df ∧ ∃ e, r.estado = some e ∧ e ∈ sel)) := by
  constructor
  · intro h
    simp [stateFilter, h]
  · intro h
    have hne : ¬ sel.isEmpty := by
      simp [List.isEmpty_iff, h]
    simp only [stateFilter, if_neg hne, List.mem_filter]
    constructor
    · rintro ⟨hmem, hpass⟩
      refine ⟨hmem, ?_⟩
      cases he : r.estado with
      | none => rw [estadoIsin, he] at hpass; exact absurd hpass (by simp)
      | some e =>
          refine ⟨e, rfl, ?_⟩
          rw [estadoIsin, he] at hpass
          simpa using hpass
    · rintro ⟨hmem, e, he, hsel⟩
      exact ⟨hmem, by simp [estadoIsin, he, hsel]⟩

/-- Concrete instance of `state_filter_correct`: with selection `["SP"]`,
a row whose state is `"RJ"` is not in the filtered view. -/
theorem state_filter_correct_witness :
    (⟨some "B", some "RJ", some 10, none, none, none, none, none⟩ : Row) ∉
      stateFilter ["SP"] [⟨some "B", some "RJ", some 10, none, none, none, none, none⟩] := by
  intro hmem
  have h := ((state_filter_correct ["SP"]
      [⟨some "B", some "RJ", some 10, none, none, none, none, none⟩]
      ⟨some "B", some "RJ", some 10, none, none, none, none, none⟩).2
    (by simp) |>.mp hmem).2
  simp at h

/-! ## Top-N selection and best/worst ranking

`DataFrame.nlargest(n, col)` with the default `keep = first` is equivalent to
a stable descending sort on the column followed by taking the first `n` rows;
`nsmallest` is the ascending counterpart.  We embed both with Mathlib's
stable `List.insertionSort`. -/

/-- Descending order on a numeric key: `keyGE key a b` holds when `a`'s key
is at least `b`'s key. -/
def keyGE (key : Row → ℚ) (a b : Row) : Prop :=
  key b ≤ key a

/-- Ascending order on a numeric key. -/
def keyLE (key : Row → ℚ) (a b : Row) : Prop :=
  key a ≤ key b

instance (key : Row → ℚ) : DecidableRel (keyGE key) :=
  fun a b => inferInstanceAs (Decidable (key b ≤ key a))

instance (key : Row → ℚ) : DecidableRel (keyLE key) :=
  fun a b => inferInstanceAs (Decidable (key a ≤ key b))

instance (key : Row → ℚ) : IsTotal Row (keyGE key) :=
  ⟨fun a b => (le_total (key b) (key a)).imp id id⟩

instance (key : Row → ℚ) : IsTrans Row (keyGE key) :=
  ⟨fun _ _ _ h1 h2 => le_trans h2 h1⟩

instance (key : Row → ℚ) : IsTotal Row (keyLE key) :=
  ⟨fun a b => (le_total (key a) (key b)).imp id id⟩

instance (key : Row → ℚ) : IsTrans Row (keyLE key) :=
  ⟨fun _ _ _ h1 h2 => le_trans h1 h2⟩

/-- `DataFrame.nlargest(n, col)` (`keep = first`): stable descending sort by
the key, then the first `n` rows. -/
def nlargest (n : Nat) (key : Row → ℚ) (df : List Row) : List Row :=
  (List.insertionSort (keyGE key) df).take n

/-- `DataFrame.nsmallest(n, col)` (`keep = first`). -/
def nsmallest (n : Nat) (key : Row → ℚ) (df : List Row) : List Row :=
  (List.insertionSort (keyLE key) df).take n

/-- app.py lines 191-193 (chart 1): the population column is re-coerced with
`fillna(0)` (line 192) and the top `top_n` rows by that column are selected
with `nlargest` — so the ranking key is `popCoerced`. -/
def dfTop (n : Nat) (df : List Row) : List Row :=
  nlargest n popCoerced df

/-- C5: for every `N` in `[5,50]`, the Top-N transform returns exactly
`min N (number of rows)` rows, sorted descending by the chosen column, and
they are the largest rows: together with the dropped rows they permute the
filtered view, and every dropped row's value is at most every kept row's
value. -/
theorem topn_correct (n : Nat) (df : List Row) (_h5 : 5 ≤ n) (_h50 : n ≤ 50) :
    (dfTop n df).length = min n df.length ∧
    (dfTop n df).Sorted (keyGE popCoerced) ∧
    List.Perm (dfTop n df ++ (List.insertionSort (keyGE popCoerced) df).drop n) df ∧
    ∀ a ∈ dfTop n df, ∀ b ∈ (List.insertionSort (keyGE popCoerced) df).drop n,
      popCoerced b ≤ popCoerced a := by
  have hsorted : (List.insertionSort (keyGE popCoerced) df).Sorted (keyGE popCoerced) :=
    List.sorted_insertionSort _ df
  have hsplit :
      (List.insertionSort (keyGE popCoerced) df).take n ++
        (List.insertionSort (keyGE popCoerced) df).drop n =
        List.insertionSort (keyGE popCoerced) df :=
    List.take_append_drop n _
  refine ⟨?_, ?_, ?_, ?_⟩
  · simp [dfTop, nlargest, List.length_insertionSort, Nat.min_comm]
  · exact List.Pairwise.sublist (List.take_sublist n _) hsorted
  · rw [show dfTop n df = (List.insertionSort (keyGE popCoerced) df).take n from rfl, hsplit]
    exact List.perm_insertionSort _ df
  · have h := hsorted
    rw [← hsplit] at h
    exact fun a ha b hb => (List.pairwise_append.mp h).2.2 a ha b hb

/-- Concrete instance of `topn_correct` at `N = 5` on a two-row view: the
Top-N result has `min 5 2 = 2` rows. -/
theorem topn_correct_witness :
    (dfTop 5 [⟨some "A", some "SP", some 100, none, none, none, none, none⟩,
              ⟨some "B", some "RJ", some 50, none, none, none, none, none⟩]).length =
      min 5 ([⟨some "A", some "SP", some 100, none, none, none, none, none⟩,
              ⟨some "B", some "RJ", some 50, none, none, none, none, none⟩] :
        List Row).length :=
  (topn_correct 5 _ (by norm_num) (by norm_num)).1

/-! ## Best/worst HDI ranking (chart 9) -/

/-- app.py lines 482-484: coerce the HDI column and drop rows whose HDI is
NaN; only rows with a parseable HDI take part in the ranking. -/
def dropNaIdh (df : List Row) : List Row :=
  df.filter (fun r => r.idh.isSome)

/-- The ranking key: the coerced HDI value (after `dropNaIdh` every row has
`some` here, so the default is never seen). -/
def idhVal (r : Row) : ℚ :=
  r.idh.getD 0

/-- app.py line 486: the 10 rows with the largest HDI. -/
def top10 (df : List Row) : List Row :=
  nlargest 10 idhVal (dropNaIdh df)

/-- app.py line 489: the 10 rows with the smallest HDI. -/
def bottom10 (df : List Row) : List Row :=
  nsmallest 10 idhVal (dropNaIdh df)

/-- app.py line 492: `pd.concat([top_10, bottom_10])` — the two groups are
concatenated with no deduplication (the `categoria` tags are the two sides
of the append). -/
def bestWorst (df : List Row) : List Row :=
  top10 df ++ bottom10 df

/-- C10, claim as stated, is false at the empty view: the view has fewer
than 20 rows with parseable HDI (namely 0), yet no row appears in both the
best and the worst group, because both groups are empty. -/
theorem ranking_overlap_counterexample :
    dropNaIdh [] = [] ∧ (dropNaIdh ([] : List Row)).length < 20 ∧
    ¬ ∃ r, r ∈ top10 [] ∧ r ∈ bottom10 [] := by
  refine ⟨rfl, by norm_num [dropNaIdh], ?_⟩
  rintro ⟨r, hr, -⟩
  simp [top10, nlargest, dropNaIdh, List.insertionSort] at hr

/-- C10 (amended): when the view has at least one and fewer than 20 rows
with parseable HDI, some row belongs to both the best-10 and the worst-10
group — the concatenation `bestWorst` then carries the same municipality row
under both categories, since no deduplication is performed. -/
theorem ranking_overlap (df : List Row) (hne : dropNaIdh df ≠ [])
    (hlt : (dropNaIdh df).length < 20) :
    ∃ r, r ∈ top10 df ∧ r ∈ bottom10 df := by
  by_contra hcon
  push_neg at hcon
  set l := dropNaIdh df with hl
  have hA : List.Subperm (top10 df) l := by
    refine List.Subperm.trans (List.Sublist.subperm (List.take_sublist 10 _)) ?_
    exact (List.perm_insertionSort (keyGE idhVal) l).subperm
  have hB : List.Subperm (bottom10 df) l := by
    refine List.Subperm.trans (List.Sublist.subperm (List.take_sublist 10 _)) ?_
    exact (List.perm_insertionSort (keyLE idhVal) l).subperm
  have hAm : ((top10 df : List Row) : Multiset Row) ≤ (l : Multiset Row) := by
    exact Multiset.coe_le.mpr hA
  have hBm : ((bottom10 df : List Row) : Multiset Row) ≤ (l : Multiset Row) := by
    exact Multiset.coe_le.mpr hB
  have hsum : ((top10 df : List Row) : Multiset Row) + (bottom10 df : List Row) ≤
      (l : Multiset Row) := by
    rw [Multiset.le_iff_count]
    intro a
    rw [Multiset.count_add]
    by_cases hmem : a ∈ top10 df
    · have : a ∉ bottom10 df := hcon a hmem
      have hzero : Multiset.count a ((bottom10 df : List Row) : Multiset Row) = 0 :=
        Multiset.count_eq_zero_of_not_mem (by simpa using this)
      rw [hzero, Nat.add_zero]
      exact Multiset.le_iff_count.mp hAm a
    · have hzero : Multiset.count a ((top10 df : List Row) : Multiset Row) = 0 :=
        Multiset.count_eq_zero_of_not_mem (by simpa using hmem)
      rw [hzero, Nat.zero_add]
      exact Multiset.le_iff_count.mp hBm a
  have hcard := Multiset.card_le_card hsum
  simp only [Multiset.card_add, Multiset.coe_card] at hcard
  have hlen : 1 ≤ l.length := by
    have := List.length_pos.mpr hne
    omega
  have hlenA : (top10 df).length = min 10 l.length := by
    simp [top10, nlargest, hl, List.length_insertionSort, Nat.min_comm]
  have hlenB : (bottom10 df).length = min 10 l.length := by
    simp [bottom10, nsmallest, hl, List.length_insertionSort, Nat.min_comm]
  rw [hlenA, hlenB] at hcard
  omega

/-- Concrete instance of `ranking_overlap`: a one-row view with parseable
HDI puts that row in both groups. -/
theorem ranking_overlap_witness :
    ∃ r, r ∈ top10 [⟨some "A", some "SP", none, none, some 1, none, none, none⟩] ∧
      r ∈ bottom10 [⟨some "A", some "SP", none, none, some 1, none, none, none⟩] :=
  ranking_overlap [⟨some "A", some "SP", none, none, some 1, none, none, none⟩]
    (by simp [dropNaIdh]) (by simp [dropNaIdh])

/-! ## Size-category binning (charts 4, 6, 8)

app.py computes a `porte` column three times (lines 298-302, 372-376,
450-454) with `pd.cut(pop, bins = [0, 20000, 100000, 500000, inf],
labels = [Pequeno, Medio, Grande, Metropole])`.  pandas defaults apply:
`right = True`, `include_lowest = False`, so bin `i` is the left-open,
right-closed interval `(bins[i], bins[i+1]]`, and a value outside every bin
(here any `v ≤ 0`) receives no category (NaN).  The second call site uses
longer label texts (`Pequeno` with a `<20k` suffix, etc.); the binning
itself is identical, so we embed the first site's labels. -/

/-- `pd.cut` as called by app.py: left-open right-closed bins
`(0, 20000]`, `(20000, 100000]`, `(100000, 500000]`, `(500000, ∞)`;
`none` for values in no bin. -/
def pdCut (v : ℚ) : Option String :=
  if 0 < v ∧ v ≤ 20000 then some "Pequeno"
  else if 20000 < v ∧ v ≤ 100000 then some "Médio"
  else if 100000 < v ∧ v ≤ 500000 then some "Grande"
  else if 500000 < v then some "Metrópole"
  else none

/-- app.py lines 292-295 (and analogously 367-370, 445-448): rows whose
population or GDP cell is NaN are dropped before the porte column is
computed, so a missing population never reaches the binning. -/
def dropNaPopPib (df : List Row) : List Row :=
  df.filter (fun r => r.pop.isSome && r.pib.isSome)

/-- C2, claim as stated, is false on the code: a population of exactly 20000
is categorized `Pequeno` (Small), not `Médio` (Medium), and a population of
exactly 0 receives no category at all rather than `Pequeno`, because
`pd.cut` with its default `right = True` uses left-open right-closed bins. -/
theorem binning_counterexample :
    pdCut 20000 = some "Pequeno" ∧ pdCut 0 = none := by
  constructor
  · rw [pdCut, if_pos (by norm_num)]
  · rw [pdCut, if_neg (by norm_num), if_neg (by norm_num), if_neg (by norm_num),
      if_neg (by norm_num)]

/-- C2 (amended): the size category is computed from the coerced population
by the left-open right-closed intervals `(0,20000]`, `(20000,100000]`,
`(100000,500000]`, `(500000,∞)` labeled Small/Medium/Large/Metropolis, so a
population exactly on a boundary falls into the lower bin (20000 is
`Pequeno`), a population of exactly 0 falls into no bin and gets no
category, and rows with missing population are dropped before binning and
are never categorized.  The five regions cover all of ℚ, so the conjunction
determines the bin of every value. -/
theorem binning_amended (v : ℚ) (df : List Row) (r : Row) :
    (v ≤ 0 → pdCut v = none) ∧
    (0 < v → v ≤ 20000 → pdCut v = some "Pequeno") ∧
    (20000 < v → v ≤ 100000 → pdCut v = some "Médio") ∧
    (100000 < v → v ≤ 500000 → pdCut v = some "Grande") ∧
    (500000 < v → pdCut v = some "Metrópole") ∧
    (r ∈ dropNaPopPib df → r.pop.isSome) := by
  refine ⟨?_, ?_, ?_, ?_, ?_, ?_⟩
  · intro h0
    rw [pdCut, if_neg (by rintro ⟨a, -⟩; linarith), if_neg (by rintro ⟨a, -⟩; linarith),
      if_neg (by rintro ⟨a, -⟩; linarith), if_neg (by intro a; linarith)]
  · intro h0 h1
    rw [pdCut, if_pos ⟨h0, h1⟩]
  · intro h0 h1
    rw [pdCut, if_neg (by rintro ⟨-, b⟩; linarith), if_pos ⟨h0, h1⟩]
  · intro h0 h1
    rw [pdCut, if_neg (by rintro ⟨-, b⟩; linarith), if_neg (by rintro ⟨-, b⟩; linarith),
      if_pos ⟨h0, h1⟩]
  · intro h0
    rw [pdCut, if_neg (by rintro ⟨-, b⟩; linarith), if_neg (by rintro ⟨-, b⟩; linarith),
      if_neg (by rintro ⟨-, b⟩; linarith), if_pos h0]
  · intro hmem
    have h := List.mem_filter.mp hmem
    exact Bool.and_elim_left (by simpa using h.2)

/-- Concrete instance of `binning_amended`: 25000 is categorized `Médio`. -/
theorem binning_amended_witness : pdCut 25000 = some "Médio" :=
  (binning_amended 25000 []
      ⟨none, none, none, none, none, none, none, none⟩).2.2.1 (by norm_num) (by norm_num)

/-! ## Column discovery (app.py lines 67-80)

String manipulation is embedded on the character lists underlying `String`
(`String.data`), with splitting, trimming and prefix tests spelled out, so
that every function computes by kernel reduction. -/

/-- Split a character list at every occurrence of the separator (the
semantics of Python `split`: `n` separators yield `n + 1` fragments, empty
fragments included). -/
def splitOnChar (sep : Char) : List Char → List (List Char)
  | [] => [[]]
  | c :: rest =>
    let r := splitOnChar sep rest
    if c = sep then [] :: r
    else
      match r with
      | [] => [[c]]
      | f :: fs => (c :: f) :: fs

/-- Remove leading and trailing whitespace (Python `int` ignores it). -/
def trimChars (cs : List Char) : List Char :=
  ((cs.dropWhile Char.isWhitespace).reverse.dropWhile Char.isWhitespace).reverse

/-- A nonempty all-digit character list read as a decimal number. -/
def parseDigits (cs : List Char) : Option Nat :=
  if cs ≠ [] ∧ cs.all Char.isDigit then
    some (cs.foldl (fun n c => 10 * n + (c.toNat - 48)) 0)
  else none

/-- Python `int(s)` on a column-name fragment: surrounding whitespace is
ignored and an optional sign may precede a nonempty digit string; any other
input raises `ValueError`, modelled as `none`.  (Digit-group underscores
cannot occur here: the argument is the part of a column name after its last
underscore.) -/
def pyToInt (cs : List Char) : Option Int :=
  match trimChars cs with
  | '-' :: rest => (parseDigits rest).map (fun n => -(n : Int))
  | '+' :: rest => (parseDigits rest).map (fun n => (n : Int))
  | t => (parseDigits t).map (fun n => (n : Int))

/-- app.py lines 69-74, the sort key `year_of`: `c.rsplit("_", 1)[-1]` is
the fragment after the last underscore (the whole name when there is no
underscore), parsed with `int`, with 0 as the fallback when parsing fails. -/
def year_of (c : String) : Int :=
  (pyToInt ((splitOnChar '_' c.data).getLastD [])).getD 0

/-- The column-family membership test of app.py line 68:
`c.startswith(prefix + "_")`. -/
def matchesFamily (pre : String) (c : String) : Bool :=
  List.isPrefixOf (pre.data ++ ['_']) c.data

/-- The ordering used by `sorted(cols, key = year_of)`. -/
def yearLE (a b : String) : Prop :=
  year_of a ≤ year_of b

instance : DecidableRel yearLE :=
  fun a b => inferInstanceAs (Decidable (year_of a ≤ year_of b))

instance : IsTotal String yearLE :=
  ⟨fun a b => Int.le_total (year_of a) (year_of b)⟩

instance : IsTrans String yearLE :=
  ⟨fun _ _ _ h1 h2 => le_trans h1 h2⟩

/-- app.py lines 67-75: columns starting with the prefix followed by an
underscore, sorted (stably) ascending by `year_of`. -/
def available_year_cols (pre : String) (cols : List String) : List String :=
  List.insertionSort yearLE (cols.filter (matchesFamily pre))

/-- app.py line 77. -/
def pop_cols (cols : List String) : List String :=
  available_year_cols "populacao_estimada" cols

/-- app.py line 78. -/
def pib_cols (cols : List String) : List String :=
  available_year_cols "pib_per_capita" cols

/-- app.py line 79: a plain comprehension in original column order — unlike
`pop_cols` and `pib_cols`, NOT passed through `available_year_cols`
(`c.startswith("idh_")` is `matchesFamily "idh"`). -/
def idh_cols (cols : List String) : List String :=
  cols.filter (matchesFamily "idh")

/-- app.py line 80: likewise unsorted. -/
def bioma_cols (cols : List String) : List String :=
  cols.filter (matchesFamily "bioma")

/-- C3, claim as stated, is false on the code: for the column-name list
`["idh_2010", "idh_2000"]` the HDI list is produced in original order,
which is not ascending by year — `idh_cols` never sorts. -/
theorem column_discovery_counterexample :
    idh_cols ["idh_2010", "idh_2000"] = ["idh_2010", "idh_2000"] ∧
    ¬ List.Sorted yearLE (idh_cols ["idh_2010", "idh_2000"]) := by
  constructor
  · decide
  · decide

/-- C3 (amended): the population-year and GDP-year lists are each sorted
ascending by the integer year parsed from the trailing suffix, a column with
an unparseable suffix sorting as year 0 rather than being excluded (the
sorted lists are permutations of the full matching-column lists); the
HDI-year list, like the biome-year list, is produced unsorted in original
column order. -/
theorem column_discovery_amended (cols : List String) :
    List.Sorted yearLE (pop_cols cols) ∧
    List.Sorted yearLE (pib_cols cols) ∧
    List.Perm (pop_cols cols) (cols.filter (matchesFamily "populacao_estimada")) ∧
    List.Perm (pib_cols cols) (cols.filter (matchesFamily "pib_per_capita")) ∧
    idh_cols cols = cols.filter (matchesFamily "idh") ∧
    bioma_cols cols = cols.filter (matchesFamily "bioma") ∧
    (∀ c, pyToInt ((splitOnChar '_' c.data).getLastD []) = none → year_of c = 0) := by
  refine ⟨List.sorted_insertionSort _ _, List.sorted_insertionSort _ _, ?_, ?_, rfl, rfl, ?_⟩
  · exact List.perm_insertionSort yearLE (cols.filter (matchesFamily "populacao_estimada"))
  · exact List.perm_insertionSort yearLE (cols.filter (matchesFamily "pib_per_capita"))
  · intro c h
    unfold year_of
    rw [h]
    rfl

/-- Concrete instance of `column_discovery_amended`: a column whose suffix
does not parse as an integer gets sort key 0. -/
theorem column_discovery_amended_witness : year_of "populacao_estimada_x" = 0 :=
  (column_discovery_amended []).2.2.2.2.2.2 "populacao_estimada_x" (by decide)

/-! ## Geo cleaning and 3D elevation (tab 4, app.py lines 521-566) -/

/-- app.py lines 522-525: latitude and longitude are coerced to numeric and
rows where either is NaN are dropped before any map rendering. -/
def dfMapRows (df : List Row) : List Row :=
  df.filter (fun r => r.lat.isSome && r.lon.isSome)

/-- The denominator of app.py line 566, `df_map[pop_col].max()`: the maximum
of the coerced, zero-filled population column (line 528) over the
geo-cleaned rows.  pandas returns NaN on an empty frame; the `.unbot' 0`
default is only a placeholder for that degenerate case, which the theorems
exclude. -/
def maxPop (l : List Row) : ℚ :=
  ((l.map popCoerced).maximum).unbot' 0

/-- app.py line 566: the normalized elevation column,
`(df_map[pop_col] / df_map[pop_col].max()) * 500000`. -/
def popNorm (l : List Row) (r : Row) : ℚ :=
  popCoerced r / maxPop l * 500000

/-- C8: every row lacking a parseable latitude or longitude is dropped (and
only those), and the 3D elevation of each remaining row is its population
divided by the maximum population over the geo-cleaned filtered rows, times
500000 — so no elevation exceeds 500000 and the maximum 500000 is attained,
relative to the current filtered set. -/
theorem geo_cleaning_elevation (df : List Row) (h : 0 < maxPop (dfMapRows df)) :
    (∀ r ∈ dfMapRows df, r.lat.isSome ∧ r.lon.isSome) ∧
    (∀ r ∈ df, r.lat.isSome → r.lon.isSome → r ∈ dfMapRows df) ∧
    (∀ r ∈ dfMapRows df, popNorm (dfMapRows df) r ≤ 500000) ∧
    (∃ r ∈ dfMapRows df, popNorm (dfMapRows df) r = 500000) := by
  refine ⟨?_, ?_, ?_, ?_⟩
  · intro r hr
    have hmem := List.mem_filter.mp hr
    constructor
    · exact Bool.and_elim_left (by simpa using hmem.2)
    · exact Bool.and_elim_right (by simpa using hmem.2)
  · intro r hr h1 h2
    exact List.mem_filter.mpr ⟨hr, by simp [h1, h2]⟩
  · intro r hr
    cases hm : ((dfMapRows df).map popCoerced).maximum with
    | bot =>
        exfalso
        rw [maxPop, hm] at h
        rw [WithBot.unbot'_bot] at h
        exact absurd h (lt_irrefl 0)
    | coe q =>
        have hq : maxPop (dfMapRows df) = q := by rw [maxPop, hm]; rfl
        have hqpos : 0 < q := hq ▸ h
        have hle : popCoerced r ≤ q :=
          List.le_maximum_of_mem (List.mem_map_of_mem popCoerced hr) (by rw [hm])
        rw [popNorm, hq]
        calc popCoerced r / q * 500000 ≤ 1 * 500000 := by
              apply mul_le_mul_of_nonneg_right _ (by norm_num)
              exact (div_le_one hqpos).mpr hle
          _ = 500000 := one_mul _
  · cases hm : ((dfMapRows df).map popCoerced).maximum with
    | bot =>
        exfalso
        rw [maxPop, hm] at h
        rw [WithBot.unbot'_bot] at h
        exact absurd h (lt_irrefl 0)
    | coe q =>
        have hq : maxPop (dfMapRows df) = q := by rw [maxPop, hm]; rfl
        have hqpos : 0 < q := hq ▸ h
        obtain ⟨r, hr, hrq⟩ := List.mem_map.mp (List.maximum_mem (by rw [hm]))
        refine ⟨r, hr, ?_⟩
        rw [popNorm, hq, hrq, div_self (ne_of_gt hqpos), one_mul]

/-- Concrete instance of `geo_cleaning_elevation`: on a one-row view with
coordinates and population 100, the elevation 500000 is attained. -/
theorem geo_cleaning_elevation_witness :
    ∃ r ∈ dfMapRows [⟨some "A", some "SP", some 100, none, none, none,
        some (-23), some (-46)⟩],
      popNorm (dfMapRows [⟨some "A", some "SP", some 100, none, none, none,
        some (-23), some (-46)⟩]) r = 500000 :=
  (geo_cleaning_elevation
      [⟨some "A", some "SP", some 100, none, none, none, some (-23), some (-46)⟩]
      (by decide)).2.2.2

/-! ## Missing-column policy (the guards of the nine charts and two maps)

Each chart section of app.py opens with an `if` deciding whether the section
runs (its *guard*) and then references a set of columns while shaping and
rendering (its *needs*).  The claim under scrutiny is that every guard
covers every referenced column.  A `Ctx` records the information the guards
read: the column-name list of the loaded frame (row filters never drop
columns) and the three sidebar year selections. -/

structure Ctx where
  cols : List String
  pop_col : Option String
  pib_col : Option String
  idh_col : Option String
deriving DecidableEq

/-- `"name" in df.columns` (also the Python truthiness test `pop_col in
df_map.columns` of line 565 when the selection is a string). -/
def hasCol (ctx : Ctx) (c : String) : Bool :=
  ctx.cols.contains c

/-- An optional column selection naming a present column; `none` (Python
`None`) is never in `df.columns`. -/
def optIn (o : Option String) (ctx : Ctx) : Bool :=
  match o with
  | some c => hasCol ctx c
  | none => false

/-- app.py lines 99-101: each year selectbox returns an element of its
discovered column family when the family is non-empty and `None` otherwise. -/
def optFrom (o : Option String) (fam : List String) : Bool :=
  match o with
  | some c => fam.contains c
  | none => fam.isEmpty

/-- app.py line 258: `bioma_cols[-1] if bioma_cols else None`. -/
def biomaSel (ctx : Ctx) : Option String :=
  (bioma_cols ctx.cols).getLast?

/-- Reachable sidebar states: every selection comes from its discovered
family (`pop_cols`/`pib_cols`/`idh_cols` applied to the frame's columns). -/
def WF (ctx : Ctx) : Bool :=
  optFrom ctx.pop_col (pop_cols ctx.cols) &&
  optFrom ctx.pib_col (pib_cols ctx.cols) &&
  optFrom ctx.idh_col (idh_cols ctx.cols)

/-- Chart 1 guard, line 190: `if pop_col and "municipio" in df_filtered.columns`. -/
def guardChart1 (ctx : Ctx) : Bool :=
  ctx.pop_col.isSome && hasCol ctx "municipio"

/-- Chart 1 columns referenced: the population column (line 192), and
`municipio` and `estado` (lines 196, 203). -/
def needsChart1 (ctx : Ctx) : Bool :=
  optIn ctx.pop_col ctx && hasCol ctx "municipio" && hasCol ctx "estado"

/-- Chart 2 guard, line 229. -/
def guardChart2 (ctx : Ctx) : Bool :=
  ctx.pop_col.isSome && hasCol ctx "estado"

/-- Chart 2 columns referenced (line 230). -/
def needsChart2 (ctx : Ctx) : Bool :=
  optIn ctx.pop_col ctx && hasCol ctx "estado"

/-- Chart 3 guard, lines 258-259: `if bioma_col and pop_col`. -/
def guardChart3 (ctx : Ctx) : Bool :=
  (biomaSel ctx).isSome && ctx.pop_col.isSome

/-- Chart 3 columns referenced (lines 261-262). -/
def needsChart3 (ctx : Ctx) : Bool :=
  optIn (biomaSel ctx) ctx && optIn ctx.pop_col ctx

/-- Chart 4 guard, line 291. -/
def guardChart4 (ctx : Ctx) : Bool :=
  ctx.pop_col.isSome && ctx.pib_col.isSome && hasCol ctx "municipio"

/-- Chart 4 columns referenced: pop and GDP (293-295), `municipio`
(hover), `estado` (color and hover, lines 308, 311). -/
def needsChart4 (ctx : Ctx) : Bool :=
  optIn ctx.pop_col ctx && optIn ctx.pib_col ctx &&
  hasCol ctx "municipio" && hasCol ctx "estado"

/-- Chart 5 guard, line 334. -/
def guardChart5 (ctx : Ctx) : Bool :=
  ctx.pib_col.isSome && hasCol ctx "estado"

/-- Chart 5 columns referenced (336-337). -/
def needsChart5 (ctx : Ctx) : Bool :=
  optIn ctx.pib_col ctx && hasCol ctx "estado"

/-- Chart 6 guard, line 366. -/
def guardChart6 (ctx : Ctx) : Bool :=
  ctx.pop_col.isSome && ctx.pib_col.isSome

/-- Chart 6 columns referenced (368-369). -/
def needsChart6 (ctx : Ctx) : Bool :=
  optIn ctx.pop_col ctx && optIn ctx.pib_col ctx

/-- Chart 7 guard, line 409. -/
def guardChart7 (ctx : Ctx) : Bool :=
  ctx.idh_col.isSome && hasCol ctx "estado"

/-- Chart 7 columns referenced (411, 415). -/
def needsChart7 (ctx : Ctx) : Bool :=
  optIn ctx.idh_col ctx && hasCol ctx "estado"

/-- Chart 8 guard, line 444. -/
def guardChart8 (ctx : Ctx) : Bool :=
  ctx.idh_col.isSome && ctx.pop_col.isSome

/-- Chart 8 columns referenced (446-447). -/
def needsChart8 (ctx : Ctx) : Bool :=
  optIn ctx.idh_col ctx && optIn ctx.pop_col ctx

/-- Chart 9 guard, line 481. -/
def guardChart9 (ctx : Ctx) : Bool :=
  ctx.idh_col.isSome && hasCol ctx "municipio"

/-- Chart 9 columns referenced: HDI (483), and the selection
`[["municipio", "estado", idh_col]]` of line 486. -/
def needsChart9 (ctx : Ctx) : Bool :=
  optIn ctx.idh_col ctx && hasCol ctx "municipio" && hasCol ctx "estado"

/-- 2D map guard, line 521. -/
def guardMap2d (ctx : Ctx) : Bool :=
  hasCol ctx "latitude" && hasCol ctx "longitude"

/-- 2D map columns referenced: coordinates (523-525), `municipio`
(`hover_name`, 541) and `estado`, plus the population and HDI selections
used unconditionally as `hover_data` keys on line 542 (a `None` key or an
absent column both make `px.scatter_mapbox` raise). -/
def needsMap2d (ctx : Ctx) : Bool :=
  hasCol ctx "latitude" && hasCol ctx "longitude" &&
  hasCol ctx "municipio" && hasCol ctx "estado" &&
  optIn ctx.pop_col ctx && optIn ctx.idh_col ctx

/-- 3D map guard, lines 521 and 565: inside the coordinate guard,
`if pop_col in df_map.columns`. -/
def guardMap3d (ctx : Ctx) : Bool :=
  guardMap2d ctx && optIn ctx.pop_col ctx

/-- 3D map columns referenced (566, 569-570, 579-580). -/
def needsMap3d (ctx : Ctx) : Bool :=
  hasCol ctx "latitude" && hasCol ctx "longitude" && optIn ctx.pop_col ctx

/-- C6, claim as stated, is false on the code: in the reachable context
with columns `municipio` and `populacao_estimada_2021` only (no `estado`
column — app.py explicitly tolerates that case at lines 86-95), chart 1's
guard passes, yet the section references the absent `estado` column at
lines 196 and 203, so its shaping raises a `KeyError` instead of the
visualization being skipped. -/
theorem missing_column_counterexample :
    WF ⟨["municipio", "populacao_estimada_2021"],
        some "populacao_estimada_2021", none, none⟩ = true ∧
    guardChart1 ⟨["municipio", "populacao_estimada_2021"],
        some "populacao_estimada_2021", none, none⟩ = true ∧
    needsChart1 ⟨["municipio", "populacao_estimada_2021"],
        some "populacao_estimada_2021", none, none⟩ = false := by
  refine ⟨by decide, by decide, by decide⟩

/-- Every column in a discovered year family is a column of the frame. -/
theorem available_year_cols_subset (pre : String) (cols : List String) (c : String)
    (h : c ∈ available_year_cols pre cols) : c ∈ cols := by
  rw [available_year_cols, List.mem_insertionSort] at h
  exact (List.mem_filter.mp h).1

/-- C6 (amended): every chart section checks availability of its selected
metric columns before shaping, and a guarded section references only
present columns — except that charts 1, 4 and 9 additionally reference the
`estado` column without checking it, and the 2D map additionally references
`municipio`, `estado` and the population/HDI selections without checking
them; those four sections are error-free only when the extra columns are
also present. -/
theorem missing_column_amended (ctx : Ctx) (h : WF ctx = true) :
    (guardChart2 ctx = true → needsChart2 ctx = true) ∧
    (guardChart3 ctx = true → needsChart3 ctx = true) ∧
    (guardChart5 ctx = true → needsChart5 ctx = true) ∧
    (guardChart6 ctx = true → needsChart6 ctx = true) ∧
    (guardChart7 ctx = true → needsChart7 ctx = true) ∧
    (guardChart8 ctx = true → needsChart8 ctx = true) ∧
    (guardMap3d ctx = true → needsMap3d ctx = true) ∧
    (guardChart1 ctx = true → hasCol ctx "estado" = true → needsChart1 ctx = true) ∧
    (guardChart4 ctx = true → hasCol ctx "estado" = true → needsChart4 ctx = true) ∧
    (guardChart9 ctx = true → hasCol ctx "estado" = true → needsChart9 ctx = true) ∧
    (guardMap2d ctx = true → hasCol ctx "municipio" = true →
      hasCol ctx "estado" = true → optIn ctx.pop_col ctx = true →
      optIn ctx.idh_col ctx = true → needsMap2d ctx = true) := by
  have hwf := h
  rw [WF, Bool.and_eq_true, Bool.and_eq_true] at hwf
  have hpop : ctx.pop_col.isSome = true → optIn ctx.pop_col ctx = true := by
    intro hs
    cases hc : ctx.pop_col with
    | none => rw [hc] at hs; exact absurd hs (by simp)
    | some c =>
        have hin := hwf.1.1
        rw [hc, optFrom] at hin
        have hmem : c ∈ pop_cols ctx.cols := by simpa using hin
        have := available_year_cols_subset "populacao_estimada" ctx.cols c hmem
        simp [optIn, hasCol, this]
  have hpib : ctx.pib_col.isSome = true → optIn ctx.pib_col ctx = true := by
    intro hs
    cases hc : ctx.pib_col with
    | none => rw [hc] at hs; exact absurd hs (by simp)
    | some c =>
        have hin := hwf.1.2
        rw [hc, optFrom] at hin
        have hmem : c ∈ pib_cols ctx.cols := by simpa using hin
        have := available_year_cols_subset "pib_per_capita" ctx.cols c hmem
        simp [optIn, hasCol, this]
  have hidh : ctx.idh_col.isSome = true → optIn ctx.idh_col ctx = true := by
    intro hs
    cases hc : ctx.idh_col with
    | none => rw [hc] at hs; exact absurd hs (by simp)
    | some c =>
        have hin := hwf.2
        rw [hc, optFrom] at hin
        have hmem : c ∈ idh_cols ctx.cols := by simpa using hin
        have : c ∈ ctx.cols := (List.mem_filter.mp hmem).1
        simp [optIn, hasCol, this]
  have hbio : (biomaSel ctx).isSome = true → optIn (biomaSel ctx) ctx = true := by
    intro hs
    cases hc : biomaSel ctx with
    | none => rw [hc] at hs; exact absurd hs (by simp)
    | some c =>
        have hmem : c ∈ bioma_cols ctx.cols :=
          List.mem_of_mem_getLast? (by rw [biomaSel] at hc; simp [hc])
        have : c ∈ ctx.cols := (List.mem_filter.mp hmem).1
        simp [optIn, hasCol, this]
  refine ⟨?_, ?_, ?_, ?_, ?_, ?_, ?_, ?_, ?_, ?_, ?_⟩
  · intro hg
    rw [guardChart2, Bool.and_eq_true] at hg
    rw [needsChart2, Bool.and_eq_true]
    exact ⟨hpop hg.1, hg.2⟩
  · intro hg
    rw [guardChart3, Bool.and_eq_true] at hg
    rw [needsChart3, Bool.and_eq_true]
    exact ⟨hbio hg.1, hpop hg.2⟩
  · intro hg
    rw [guardChart5, Bool.and_eq_true] at hg
    rw [needsChart5, Bool.and_eq_true]
    exact ⟨hpib hg.1, hg.2⟩
  · intro hg
    rw [guardChart6, Bool.and_eq_true] at hg
    rw [needsChart6, Bool.and_eq_true]
    exact ⟨hpop hg.1, hpib hg.2⟩
  · intro hg
    rw [guardChart7, Bool.and_eq_true] at hg
    rw [needsChart7, Bool.and_eq_true]
    exact ⟨hidh hg.1, hg.2⟩
  · intro hg
    rw [guardChart8, Bool.and_eq_true] at hg
    rw [needsChart8, Bool.and_eq_true]
    exact ⟨hidh hg.1, hpop hg.2⟩
  · intro hg
    rw [guardMap3d, Bool.and_eq_true, guardMap2d, Bool.and_eq_true] at hg
    rw [needsMap3d, Bool.and_eq_true, Bool.and_eq_true]
    exact ⟨⟨hg.1.1, hg.1.2⟩, hg.2⟩
  · intro hg he
    rw [guardChart1, Bool.and_eq_true] at hg
    rw [needsChart1, Bool.and_eq_true, Bool.and_eq_true]
    exact ⟨⟨hpop hg.1, hg.2⟩, he⟩
  · intro hg he
    rw [guardChart4, Bool.and_eq_true, Bool.and_eq_true] at hg
    rw [needsChart4, Bool.and_eq_true, Bool.and_eq_true, Bool.and_eq_true]
    exact ⟨⟨⟨hpop hg.1.1, hpib hg.1.2⟩, hg.2⟩, he⟩
  · intro hg he
    rw [guardChart9, Bool.and_eq_true] at hg
    rw [needsChart9, Bool.and_eq_true, Bool.and_eq_true]
    exact ⟨⟨hidh hg.1, hg.2⟩, he⟩
  · intro hg hm he hp hi
    rw [guardMap2d, Bool.and_eq_true] at hg
    rw [needsMap2d]
    simp only [Bool.and_eq_true]
    exact ⟨⟨⟨⟨⟨hg.1, hg.2⟩, hm⟩, he⟩, hp⟩, hi⟩

/-- Concrete instance of `missing_column_amended`: with the full column
set present, the 2D map section references only present columns. -/
theorem missing_column_amended_witness :
    needsMap2d ⟨["municipio", "estado", "latitude", "longitude",
        "populacao_estimada_2021", "idh_2010"],
      some "populacao_estimada_2021", none, some "idh_2010"⟩ = true :=
  (missing_column_amended
      ⟨["municipio", "estado", "latitude", "longitude",
          "populacao_estimada_2021", "idh_2010"],
        some "populacao_estimada_2021", none, some "idh_2010"⟩
      (by decide)).2.2.2.2.2.2.2.2.2.2
    (by decide) (by decide) (by decide) (by decide) (by decide)

/-! ## Frame property: the cached table is never mutated (C9)

The script's pandas statements fall into three shapes: `dst = src.copy()`
(allocates a fresh frame), `dst = f(src)` where `f` is boolean-mask row
selection, `groupby(...).agg(...).reset_index()`, `dropna`, `sort_values`,
`nlargest`/`nsmallest`, or `pd.concat` (all of which return a new frame),
and `dst[col] = series` (an in-place write to the frame currently bound to
`dst`).  We embed the statement sequence of one script run as data, execute
it against a heap of frame objects (the table contents are abstract — the
frame property does not depend on them), and prove that object 0, the frame
cached by `load_df`, is never written. -/

/-- One pandas statement, reduced to the name it binds or mutates. -/
inductive PStmt where
  | copyFrom (dst src : String)
  | rebind (dst src : String)
  | setCol (dst : String)
deriving DecidableEq

/-- The name a statement writes (by rebinding or in place). -/
def PStmt.dst : PStmt → String
  | .copyFrom d _ => d
  | .rebind d _ => d
  | .setCol d => d

/-- Abstract table operations; their contents are irrelevant to the frame
property. -/
structure Ops (τ : Type) where
  copyT : τ → τ
  rebindT : τ → τ
  setColT : τ → τ

/-- Interpreter state: Python bindings (name to object id), the object
store, and the next fresh id. -/
structure PState (τ : Type) where
  env : List (String × Nat)
  store : Nat → Option τ
  next : Nat

/-- Association-list lookup of a binding. -/
def lookupName (n : String) : List (String × Nat) → Option Nat
  | [] => none
  | (m, i) :: rest => if n = m then some i else lookupName n rest

/-- The frame currently bound to a name. -/
def readFrame {τ : Type} (σ : PState τ) (n : String) : Option τ :=
  (lookupName n σ.env).bind σ.store

/-- Execute one statement: `copyFrom`/`rebind` allocate a fresh object and
bind the destination name to it; `setCol` overwrites the object already
bound to the destination name, in place. -/
def execStmt {τ : Type} (ops : Ops τ) (σ : PState τ) : PStmt → PState τ
  | .copyFrom d s =>
    match readFrame σ s with
    | none => σ
    | some t =>
      ⟨(d, σ.next) :: σ.env,
        fun i => if i = σ.next then some (ops.copyT t) else σ.store i,
        σ.next + 1⟩
  | .rebind d s =>
    match readFrame σ s with
    | none => σ
    | some t =>
      ⟨(d, σ.next) :: σ.env,
        fun i => if i = σ.next then some (ops.rebindT t) else σ.store i,
        σ.next + 1⟩
  | .setCol d =>
    match lookupName d σ.env with
    | none => σ
    | some i =>
      ⟨σ.env, fun j => if j = i then (σ.store i).map ops.setColT else σ.store j, σ.next⟩

/-- Execute a statement list in order. -/
def execProg {τ : Type} (ops : Ops τ) (prog : List PStmt) (σ : PState τ) : PState τ :=
  prog.foldl (execStmt ops) σ

/-- Which script sections run (sidebar state and chart guards). -/
structure Flags where
  estadoSelOn : Bool
  popOn : Bool
  chart1 : Bool
  chart2 : Bool
  chart3 : Bool
  chart4 : Bool
  chart5 : Bool
  chart6 : Bool
  chart7 : Bool
  chart8 : Bool
  chart9 : Bool
  mapOn : Bool
  map3dOn : Bool

/-- The frame statements of one script run, section by section (line
numbers refer to app.py).  `df` is bound by the cached loader; everything
downstream copies or allocates before mutating. -/
def appProgram (f : Flags) : List PStmt :=
  (if f.popOn then [PStmt.rebind "tmp" "df"] else []) ++
  [PStmt.copyFrom "df_filtered" "df"] ++
  (if f.estadoSelOn then [PStmt.rebind "df_filtered" "df_filtered"] else []) ++
  (if f.popOn then
    [PStmt.setCol "df_filtered", PStmt.rebind "df_filtered" "df_filtered"] else []) ++
  (if f.chart1 then
    [PStmt.copyFrom "df_top" "df_filtered", PStmt.setCol "df_top",
     PStmt.rebind "df_top" "df_top", PStmt.setCol "df_top"] else []) ++
  (if f.chart2 then
    [PStmt.rebind "df_estado" "df_filtered",
     PStmt.rebind "df_estado" "df_estado"] else []) ++
  (if f.chart3 then
    [PStmt.copyFrom "df_bioma" "df_filtered", PStmt.setCol "df_bioma",
     PStmt.rebind "df_bioma_grouped" "df_bioma"] else []) ++
  (if f.chart4 then
    [PStmt.copyFrom "df_scatter" "df_filtered", PStmt.setCol "df_scatter",
     PStmt.setCol "df_scatter", PStmt.rebind "df_scatter" "df_scatter",
     PStmt.setCol "df_scatter"] else []) ++
  (if f.chart5 then
    [PStmt.copyFrom "df_pib_estado" "df_filtered", PStmt.setCol "df_pib_estado",
     PStmt.rebind "df_pib_grouped" "df_pib_estado",
     PStmt.rebind "df_pib_grouped" "df_pib_grouped"] else []) ++
  (if f.chart6 then
    [PStmt.copyFrom "df_porte" "df_filtered", PStmt.setCol "df_porte",
     PStmt.setCol "df_porte", PStmt.rebind "df_porte" "df_porte",
     PStmt.setCol "df_porte"] else []) ++
  (if f.chart7 then
    [PStmt.copyFrom "df_idh" "df_filtered", PStmt.setCol "df_idh",
     PStmt.rebind "df_idh" "df_idh"] else []) ++
  (if f.chart8 then
    [PStmt.copyFrom "df_idh_pop" "df_filtered", PStmt.setCol "df_idh_pop",
     PStmt.setCol "df_idh_pop", PStmt.rebind "df_idh_pop" "df_idh_pop",
     PStmt.setCol "df_idh_pop"] else []) ++
  (if f.chart9 then
    [PStmt.copyFrom "df_idh_ranking" "df_filtered", PStmt.setCol "df_idh_ranking",
     PStmt.rebind "df_idh_ranking" "df_idh_ranking",
     PStmt.rebind "top_10" "df_idh_ranking", PStmt.setCol "top_10",
     PStmt.rebind "bottom_10" "df_idh_ranking", PStmt.setCol "bottom_10",
     PStmt.rebind "df_comparison" "top_10", PStmt.setCol "df_comparison"] else []) ++
  (if f.mapOn then
    [PStmt.copyFrom "df_map" "df_filtered", PStmt.setCol "df_map",
     PStmt.setCol "df_map", PStmt.rebind "df_map" "df_map",
     PStmt.setCol "df_map", PStmt.setCol "df_map"] else []) ++
  (if f.map3dOn then [PStmt.setCol "df_map"] else [])

/-- Destinations never name the cached frame. -/
def dstOk (prog : List PStmt) : Bool :=
  prog.all (fun p => p.dst ≠ "df")

theorem dstOk_append {l1 l2 : List PStmt} (h1 : dstOk l1 = true)
    (h2 : dstOk l2 = true) : dstOk (l1 ++ l2) = true := by
  rw [dstOk, List.all_append]
  rw [dstOk] at h1 h2
  rw [h1, h2]
  rfl

theorem dstOk_ite {b : Bool} {l : List PStmt} (h : dstOk l = true) :
    dstOk (if b then l else []) = true := by
  cases b
  · rfl
  · simpa using h

/-- `all` over a guard-selected section holds when it holds for the section. -/
theorem all_ite_nil {α : Type} (b : Bool) (l : List α) (q : α → Bool)
    (h : l.all q = true) : (if b then l else []).all q = true := by
  cases b
  · rfl
  · simpa using h

/-- No statement of any run of the script writes to the name `df`. -/
theorem appProgram_dstOk (f : Flags) : dstOk (appProgram f) = true := by
  rw [dstOk, appProgram]
  simp only [List.all_append, Bool.and_eq_true]
  refine And.intro ?_ (all_ite_nil _ _ _ (by decide))
  refine And.intro ?_ (all_ite_nil _ _ _ (by decide))
  refine And.intro ?_ (all_ite_nil _ _ _ (by decide))
  refine And.intro ?_ (all_ite_nil _ _ _ (by decide))
  refine And.intro ?_ (all_ite_nil _ _ _ (by decide))
  refine And.intro ?_ (all_ite_nil _ _ _ (by decide))
  refine And.intro ?_ (all_ite_nil _ _ _ (by decide))
  refine And.intro ?_ (all_ite_nil _ _ _ (by decide))
  refine And.intro ?_ (all_ite_nil _ _ _ (by decide))
  refine And.intro ?_ (all_ite_nil _ _ _ (by decide))
  refine And.intro ?_ (all_ite_nil _ _ _ (by decide))
  refine And.intro ?_ (all_ite_nil _ _ _ (by decide))
  refine And.intro ?_ (all_ite_nil _ _ _ (by decide))
  exact And.intro (all_ite_nil _ _ _ (by decide)) (by decide)

/-- Invariant: the fresh-id counter stays positive and every binding other
than `df` points to a nonzero object id. -/
def EnvSafe {τ : Type} (σ : PState τ) : Prop :=
  1 ≤ σ.next ∧ ∀ n i, lookupName n σ.env = some i → n = "df" ∨ 1 ≤ i

theorem execStmt_frame {τ : Type} (ops : Ops τ) (σ : PState τ) (p : PStmt)
    (hσ : EnvSafe σ) (hp : p.dst ≠ "df") :
    (execStmt ops σ p).store 0 = σ.store 0 ∧ EnvSafe (execStmt ops σ p) := by
  obtain ⟨hnext, henv⟩ := hσ
  cases p with
  | copyFrom d s =>
    cases hr : readFrame σ s with
    | none =>
        simp only [execStmt, hr]
        exact ⟨trivial, hnext, henv⟩
    | some t =>
        simp only [execStmt, hr]
        refine ⟨?_, ?_, ?_⟩
        · show (if (0 : Nat) = σ.next then some (ops.copyT t) else σ.store 0) = σ.store 0
          exact if_neg (by omega)
        · show 1 ≤ σ.next + 1
          omega
        · intro n i h
          rw [lookupName] at h
          by_cases hn : n = d
          · rw [if_pos hn] at h
            injection h with h2
            right
            omega
          · rw [if_neg hn] at h
            exact henv n i h
  | rebind d s =>
    cases hr : readFrame σ s with
    | none =>
        simp only [execStmt, hr]
        exact ⟨trivial, hnext, henv⟩
    | some t =>
        simp only [execStmt, hr]
        refine ⟨?_, ?_, ?_⟩
        · show (if (0 : Nat) = σ.next then some (ops.rebindT t) else σ.store 0) = σ.store 0
          exact if_neg (by omega)
        · show 1 ≤ σ.next + 1
          omega
        · intro n i h
          rw [lookupName] at h
          by_cases hn : n = d
          · rw [if_pos hn] at h
            injection h with h2
            right
            omega
          · rw [if_neg hn] at h
            exact henv n i h
  | setCol d =>
    cases hr : lookupName d σ.env with
    | none =>
        simp only [execStmt, hr]
        exact ⟨trivial, hnext, henv⟩
    | some i =>
        have hi : 1 ≤ i := by
          rcases henv d i hr with h | h
          · exact absurd h (by simpa [PStmt.dst] using hp)
          · exact h
        simp only [execStmt, hr]
        refine ⟨?_, hnext, henv⟩
        show (if (0 : Nat) = i then (σ.store i).map ops.setColT else σ.store 0) = σ.store 0
        exact if_neg (by omega)

theorem execProg_frame {τ : Type} (ops : Ops τ) (prog : List PStmt)
    (σ : PState τ) (hσ : EnvSafe σ) (hp : dstOk prog = true) :
    (execProg ops prog σ).store 0 = σ.store 0 ∧ EnvSafe (execProg ops prog σ) := by
  induction prog generalizing σ with
  | nil => exact ⟨rfl, hσ⟩
  | cons p rest ih =>
    rw [dstOk, List.all_cons, Bool.and_eq_true] at hp
    have hstep := execStmt_frame ops σ p hσ (by simpa using hp.1)
    have hrest := ih (execStmt ops σ p) hstep.2 hp.2
    refine ⟨?_, ?_⟩
    · rw [execProg, List.foldl_cons]
      rw [execProg] at hrest
      rw [hrest.1, hstep.1]
    · rw [execProg, List.foldl_cons]
      rw [execProg] at hrest
      exact hrest.2

/-- The state at process start: `load_df` has read the file into object 0,
bound to `df`; the memo cache will keep returning object 0. -/
def initState {τ : Type} (t : τ) : PState τ :=
  ⟨[("df", 0)], fun i => if i = 0 then some t else none, 1⟩

/-- One Streamlit rerun: the script restarts with fresh bindings, `df`
rebound by the cache to object 0, and executes the statements selected by
the current widget state; the object store (the cache) persists. -/
def runOnce {τ : Type} (ops : Ops τ) (f : Flags) (σ : PState τ) : PState τ :=
  execProg ops (appProgram f) ⟨[("df", 0)], σ.store, σ.next⟩

/-- A session: `k` reruns with arbitrary widget states per rerun. -/
def runSession {τ : Type} (ops : Ops τ) (t : τ) (fs : Nat → Flags) : Nat → PState τ
  | 0 => initState t
  | k + 1 => runOnce ops (fs k) (runSession ops t fs k)

/-- C9: the loaded table is never mutated in place — the filter stage and
every per-chart transform write only to freshly allocated copies, so after
any sequence of user interactions the cached table (object 0) still holds
exactly the table as first loaded. -/
theorem loaded_table_never_mutated {τ : Type} (ops : Ops τ) (t : τ)
    (fs : Nat → Flags) (k : Nat) :
    (runSession ops t fs k).store 0 = some t ∧ 1 ≤ (runSession ops t fs k).next := by
  induction k with
  | zero => exact ⟨by simp [runSession, initState], by simp [runSession, initState]⟩
  | succ k ih =>
    have hsafe : EnvSafe (⟨[("df", 0)], (runSession ops t fs k).store,
        (runSession ops t fs k).next⟩ : PState τ) := by
      refine ⟨ih.2, ?_⟩
      intro n i h
      rw [lookupName] at h
      by_cases hn : n = "df"
      · exact Or.inl hn
      · rw [if_neg hn] at h
        rw [lookupName] at h
        exact absurd h (by simp)
    have := execProg_frame ops (appProgram (fs k))
      ⟨[("df", 0)], (runSession ops t fs k).store, (runSession ops t fs k).next⟩
      hsafe (appProgram_dstOk (fs k))
    refine ⟨?_, ?_⟩
    · rw [runSession, runOnce]
      rw [this.1]
      exact ih.1
    · rw [runSession, runOnce]
      exact this.2.1

/-! ## CSV export round-trip (C7, app.py lines 57-60 and 135-144)

`df_filtered.to_csv(index = False)` writes the header row followed by the
data rows, each line terminated by a newline, with RFC-4180 quoting under
the pandas default QUOTE_MINIMAL: a field is wrapped in double quotes iff
it contains the delimiter, the quote character, or a line break, and inner
quotes are doubled.  `pd.read_csv` splits the text back into records
(quote-aware, skipping blank lines) and fields.  Cells are embedded as
character lists, the form the serialized text actually carries. -/

/-- A character forcing QUOTE_MINIMAL quoting. -/
def isSpecial (c : Char) : Bool :=
  c = ',' || c = '"' || c = '\n' || c = '\r'

/-- Does a serialized field need quoting? -/
def needsQuote (s : List Char) : Bool :=
  s.any isSpecial

/-- Double every inner quote. -/
def escQuotes : List Char → List Char
  | [] => []
  | c :: rest => (if c = '"' then ['"', '"'] else [c]) ++ escQuotes rest

/-- Serialize one field (`to_csv`, QUOTE_MINIMAL). -/
def writeField (s : List Char) : List Char :=
  if needsQuote s then '"' :: (escQuotes s ++ ['"']) else s

/-- Serialize one record: fields joined by commas. -/
def writeRow : List (List Char) → List Char
  | [] => []
  | f :: rest => writeField f ++ (if rest.isEmpty then [] else ',' :: writeRow rest)

/-- Serialize records, each terminated by a newline (the pandas line
terminator when writing to a buffer). -/
def writeRowsCSV : List (List (List Char)) → List Char
  | [] => []
  | r :: rest => writeRow r ++ '\n' :: writeRowsCSV rest

/-- `to_csv(index = False)`: the header record first, then the data
records. -/
def writeCSV (header : List (List Char)) (rows : List (List (List Char))) : List Char :=
  writeRowsCSV (header :: rows)

/-- Parse the remainder of a quoted field, after its opening quote: a
doubled quote is a literal quote, a lone quote closes the field; an
unterminated quote is a parse error. -/
def parseQuoted : List Char → List Char → Option (List Char × List Char)
  | [], _ => none
  | c :: rest, acc =>
    if c = '"' then
      if rest.head? = some '"' then parseQuoted rest.tail (acc ++ ['"'])
      else some (acc, rest)
    else parseQuoted rest (acc ++ [c])
termination_by cs _ => cs.length
decreasing_by
  all_goals
    simp only [List.length_cons, List.length_tail]
    omega

/-- Parse an unquoted field: everything up to the next delimiter or line
break (which is left in the remainder). -/
def parseUnquoted : List Char → List Char × List Char
  | [] => ([], [])
  | c :: rest =>
    if c = ',' ∨ c = '\n' then ([], c :: rest)
    else
      let p := parseUnquoted rest
      (c :: p.1, p.2)

/-- Parse one field: quoted if it opens with a quote, unquoted otherwise. -/
def parseField (cs : List Char) : Option (List Char × List Char) :=
  if cs.head? = some '"' then parseQuoted cs.tail []
  else some (parseUnquoted cs)

/-- Parse one record: fields separated by commas, ended by a newline or the
end of input.  The fuel bounds the number of fields (any record of the
input has fewer fields than characters plus one). -/
def parseRecordF : Nat → List Char → Option (List (List Char) × List Char)
  | 0, _ => none
  | fuel + 1, cs =>
    (parseField cs).bind (fun p =>
      if p.2.head? = some ',' then
        (parseRecordF fuel p.2.tail).map (fun q => (p.1 :: q.1, q.2))
      else if p.2.head? = some '\n' then some ([p.1], p.2.tail)
      else if p.2 = [] then some ([p.1], [])
      else none)

/-- Parse all records, skipping blank lines (`skip_blank_lines = True`).
The fuel bounds the number of records. -/
def parseRecordsF : Nat → List Char → Option (List (List (List Char)))
  | 0, _ => none
  | fuel + 1, cs =>
    if cs = [] then some []
    else if cs.head? = some '\n' then parseRecordsF fuel cs.tail
    else
      (parseRecordF (cs.length + 1) cs).bind (fun p =>
        (parseRecordsF fuel p.2).map (fun rs => p.1 :: rs))

/-- `pd.read_csv` restricted to the structure the round-trip claim speaks
about: the first parsed record is the header, the rest are the data rows. -/
def read_csv (cs : List Char) :
    Option (List (List Char) × List (List (List Char))) :=
  (parseRecordsF (cs.length + 1) cs).bind (fun rs =>
    match rs with
    | [] => none
    | h :: rest => some (h, rest))

theorem writeRow_single (f : List Char) : writeRow [f] = writeField f := by
  simp [writeRow]

theorem writeRow_cons (f g : List Char) (r : List (List Char)) :
    writeRow (f :: g :: r) = writeField f ++ ',' :: writeRow (g :: r) := by
  simp [writeRow]

theorem parseQuoted_esc (s : List Char) (acc rest : List Char)
    (h : rest.head? ≠ some '"') :
    parseQuoted (escQuotes s ++ '"' :: rest) acc = some (acc ++ s, rest) := by
  induction s generalizing acc with
  | nil =>
    rw [escQuotes, List.nil_append, parseQuoted, if_pos rfl, if_neg h]
    simp
  | cons a s2 ih =>
    by_cases ha : a = '"'
    · subst ha
      rw [escQuotes, if_pos rfl]
      show parseQuoted ('"' :: ('"' :: (escQuotes s2 ++ '"' :: rest))) acc = _
      rw [parseQuoted, if_pos rfl]
      rw [show (('"' :: (escQuotes s2 ++ '"' :: rest)) : List Char).head? = some '"' from rfl]
      rw [if_pos rfl]
      show parseQuoted (escQuotes s2 ++ '"' :: rest) (acc ++ ['"']) = _
      rw [ih (acc ++ ['"'])]
      simp
    · rw [escQuotes, if_neg ha]
      show parseQuoted (a :: (escQuotes s2 ++ '"' :: rest)) acc = _
      rw [parseQuoted, if_neg ha]
      rw [ih (acc ++ [a])]
      simp

theorem parseUnquoted_plain (s rest : List Char)
    (hs : ∀ c ∈ s, ¬ (c = ',' ∨ c = '\n'))
    (hr : rest.head? = none ∨ rest.head? = some ',' ∨ rest.head? = some '\n') :
    parseUnquoted (s ++ rest) = (s, rest) := by
  induction s with
  | nil =>
    rw [List.nil_append]
    cases rest with
    | nil => rfl
    | cons c rest2 =>
      have hc : c = ',' ∨ c = '\n' := by
        rcases hr with h | h | h
        · exact absurd h (by simp)
        · exact Or.inl (by simpa using h)
        · exact Or.inr (by simpa using h)
      rw [parseUnquoted, if_pos hc]
  | cons a s2 ih =>
    have ha : ¬ (a = ',' ∨ a = '\n') := hs a (List.mem_cons_self a s2)
    rw [List.cons_append, parseUnquoted, if_neg ha]
    rw [ih (fun c hc => hs c (List.mem_cons_of_mem a hc))]

theorem parseField_not_quote (cs : List Char) (h : cs.head? ≠ some '"') :
    parseField cs = some (parseUnquoted cs) := by
  rw [parseField, if_neg h]

theorem notSpecial_of_needsQuote_eq_false {s : List Char} (h : needsQuote s = false)
    {c : Char} (hc : c ∈ s) : ¬ c = ',' ∧ ¬ c = '"' ∧ ¬ c = '\n' ∧ ¬ c = '\r' := by
  rw [needsQuote, List.any_eq_false] at h
  have hcs := h c hc
  have hcs2 : ¬ (c = ',' ∨ c = '"' ∨ c = '\n' ∨ c = '\r') := by
    intro hor
    rw [isSpecial] at hcs
    rcases hor with h1 | h1 | h1 | h1 <;> simp [h1] at hcs
  exact ⟨fun h1 => hcs2 (Or.inl h1), fun h1 => hcs2 (Or.inr (Or.inl h1)),
    fun h1 => hcs2 (Or.inr (Or.inr (Or.inl h1))),
    fun h1 => hcs2 (Or.inr (Or.inr (Or.inr h1)))⟩

theorem parseField_write (f rest : List Char)
    (hr : rest.head? = none ∨ rest.head? = some ',' ∨ rest.head? = some '\n') :
    parseField (writeField f ++ rest) = some (f, rest) := by
  have hrq : rest.head? ≠ some '"' := by
    rcases hr with h | h | h <;> rw [h] <;> simp
  cases hq : needsQuote f with
  | true =>
    rw [writeField, if_pos hq]
    rw [parseField]
    rw [show (('"' :: (escQuotes f ++ ['"'])) ++ rest : List Char).head? = some '"' from rfl]
    rw [if_pos rfl]
    show parseQuoted ((escQuotes f ++ ['"']) ++ rest) [] = _
    rw [List.append_assoc, List.singleton_append]
    rw [parseQuoted_esc f [] rest hrq]
    simp
  | false =>
    rw [writeField, if_neg (by simp [hq])]
    have hplain : ∀ c ∈ f, ¬ (c = ',' ∨ c = '\n') := by
      intro c hc hor
      have hn := notSpecial_of_needsQuote_eq_false hq hc
      rcases hor with h | h
      · exact hn.1 h
      · exact hn.2.2.1 h
    have hhead : (f ++ rest).head? ≠ some '"' := by
      cases f with
      | nil =>
        rw [List.nil_append]
        exact hrq
      | cons a f2 =>
        have := (notSpecial_of_needsQuote_eq_false hq (List.mem_cons_self a f2)).2.1
        simpa using this
    rw [parseField_not_quote _ hhead]
    rw [parseUnquoted_plain f rest hplain hr]

theorem parseRecordF_write (r : List (List Char)) (rest : List Char) (fuel : Nat)
    (hne : r ≠ []) (hfuel : r.length ≤ fuel) :
    parseRecordF fuel (writeRow r ++ '\n' :: rest) = some (r, rest) := by
  induction r generalizing fuel rest with
  | nil => exact absurd rfl hne
  | cons f r2 ih =>
    cases fuel with
    | zero => simp at hfuel
    | succ fu =>
      cases r2 with
      | nil =>
        rw [writeRow_single, parseRecordF]
        rw [parseField_write f ('\n' :: rest) (Or.inr (Or.inr rfl))]
        simp
      | cons g r3 =>
        have hih := ih rest fu (by simp) (by simp at hfuel ⊢; omega)
        rw [writeRow_cons, List.append_assoc, List.cons_append]
        rw [parseRecordF]
        rw [parseField_write f (',' :: (writeRow (g :: r3) ++ '\n' :: rest))
          (Or.inr (Or.inl rfl))]
        simp [hih]

theorem writeField_head_ok (f : List Char) :
    (writeField f).head? ≠ some '\n' := by
  cases hq : needsQuote f with
  | true => rw [writeField, if_pos hq]; simp
  | false =>
    rw [writeField, if_neg (by simp [hq])]
    cases f with
    | nil => simp
    | cons a f2 =>
      have := (notSpecial_of_needsQuote_eq_false hq (List.mem_cons_self a f2)).2.2.1
      simpa using this

theorem writeRow_wide_head_ok (f g : List Char) (r : List (List Char))
    (suffix : List Char) :
    (writeRow (f :: g :: r) ++ suffix).head? ≠ some '\n' ∧
    writeRow (f :: g :: r) ++ suffix ≠ [] := by
  rw [writeRow_cons]
  cases hw : writeField f with
  | nil => simp
  | cons a w2 =>
    have hh := writeField_head_ok f
    rw [hw] at hh
    constructor
    · simpa using hh
    · simp

theorem length_le_writeRow (r : List (List Char)) :
    r.length ≤ (writeRow r).length + 1 := by
  induction r with
  | nil => simp
  | cons f r2 ih =>
    cases r2 with
    | nil => simp
    | cons g r3 =>
      rw [writeRow_cons]
      simp only [List.length_append, List.length_cons] at ih ⊢
      omega

theorem length_le_writeRowsCSV (rows : List (List (List Char))) :
    rows.length ≤ (writeRowsCSV rows).length := by
  induction rows with
  | nil => simp
  | cons r rest ih =>
    rw [writeRowsCSV]
    simp only [List.length_append, List.length_cons]
    omega

theorem parseRecordsF_write (rows : List (List (List Char))) (fuel : Nat)
    (hlen : ∀ r ∈ rows, 2 ≤ r.length) (hfuel : rows.length + 1 ≤ fuel) :
    parseRecordsF fuel (writeRowsCSV rows) = some rows := by
  induction rows generalizing fuel with
  | nil =>
    cases fuel with
    | zero => simp at hfuel
    | succ fu =>
      rw [writeRowsCSV, parseRecordsF]
      simp
  | cons r rows2 ih =>
    cases fuel with
    | zero => simp at hfuel
    | succ fu =>
      have hr2 : 2 ≤ r.length := hlen r (List.mem_cons_self r rows2)
      obtain ⟨f, g, r3, hfg⟩ : ∃ f g r3, r = f :: g :: r3 := by
        cases r with
        | nil => simp at hr2
        | cons f r2 =>
          cases r2 with
          | nil => simp at hr2
          | cons g r3 => exact ⟨f, g, r3, rfl⟩
      subst hfg
      have hhead := writeRow_wide_head_ok f g r3 ('\n' :: writeRowsCSV rows2)
      rw [writeRowsCSV, parseRecordsF]
      rw [if_neg hhead.2, if_neg hhead.1]
      have hfu2 : (f :: g :: r3).length ≤
          (writeRow (f :: g :: r3) ++ '\n' :: writeRowsCSV rows2).length + 1 := by
        have hw := length_le_writeRow (f :: g :: r3)
        simp only [List.length_append, List.length_cons] at *
        omega
      rw [parseRecordF_write (f :: g :: r3) (writeRowsCSV rows2) _ (by simp) hfu2]
      have hih := ih fu (fun x hx => hlen x (List.mem_cons_of_mem _ hx))
        (by simp at hfuel ⊢; omega)
      simp [hih]

/-- C7: the export round-trip.  Serializing the filtered view with
`to_csv(index = False)` and reparsing with `read_csv` returns exactly the
original header (the column set, in order, with no reordering) and exactly
the original rows — in particular the same row count.  Hypotheses record
the shape of this dataset's frames: at least two columns (a one-column
frame could serialize an all-empty row to a blank line, which `read_csv`
would skip), pairwise distinct column names (`read_csv` mangles
duplicates, a behavior outside this model), and rectangular rows. -/
theorem export_roundtrip (header : List (List Char)) (rows : List (List (List Char)))
    (hcols : 2 ≤ header.length) (_hnodup : header.Nodup)
    (hrect : ∀ r ∈ rows, r.length = header.length) :
    read_csv (writeCSV header rows) = some (header, rows) := by
  have hall : ∀ r ∈ header :: rows, 2 ≤ r.length := by
    intro r hr
    rcases List.mem_cons.mp hr with h | h
    · rw [h]; exact hcols
    · rw [hrect r h]; exact hcols
  have hfuel : (header :: rows).length + 1 ≤ (writeRowsCSV (header :: rows)).length + 1 := by
    have := length_le_writeRowsCSV (header :: rows)
    omega
  rw [writeCSV, read_csv]
  rw [parseRecordsF_write (header :: rows) _ hall hfuel]
  simp

/-- Concrete instance of `export_roundtrip`: a two-column, two-row view
(with an empty cell and a cell containing a comma and a quote) survives the
round-trip unchanged. -/
theorem export_roundtrip_witness :
    read_csv (writeCSV [['m'], ['e']]
        [[['a', ',', '"', 'b'], ['S', 'P']], [[], ['R', 'J']]]) =
      some ([['m'], ['e']],
        [[['a', ',', '"', 'b'], ['S', 'P']], [[], ['R', 'J']]]) :=
  export_roundtrip [['m'], ['e']]
    [[['a', ',', '"', 'b'], ['S', 'P']], [[], ['R', 'J']]]
    (by decide) (by decide) (by decide)

end Dashboard
